import Mathlib

/-!
BrowserSelector: a shallow embedding of `src/main.cpp`.

The program keeps an ordered list of browser entries and a last-used index in
two globals, persists them as one JSON document, and launches the selected
browser on a URL.  This file embeds the functions of `main.cpp` that carry that
behaviour and proves properties of them.

Modelling boundary.

* `std::string` is a Lean `String` (text in valid UTF-8, as the JSON library
  requires of what it dumps and yields for what it parses); `std::vector<T>`
  is a `List T`.  A `std::string` may hold NUL characters (a config file can
  spell one as an escape); wherever `main.cpp` passes `s.c_str()` or reads a
  `const char*` back into a `std::string`, the model passes `c_str s`, the
  text up to the first NUL.  Strings that reach the program as `const char*`
  from outside (the entries of `argv`, the answers of the two dialogs) are
  given by their text.
* `size_t` is a `Nat`, `int` is an `Int`.  The one place where a value of
  arbitrary size crosses an `int` is the read of `last_used` from the config
  document (`j.value("last_used", 0)` returns `int`); that conversion and the
  following `int → size_t` conversion are modelled with explicit wrap-around.
  Vector sizes and list rows stay far below `2^31` (the list widget addresses
  rows by `int`), so `(int)g_browsers.size()` and `index-1` are exact.
* The JSON library is modelled at the level of its value type: a config file is
  absent, or holds text the parser rejects, or holds a document the parser
  turns into a `Json` value; writing `j.dump(2)` to the file leaves a document
  that parses back to `j`.  Floating-point numbers are not part of `Json`.
  An exception of the library is an `Except.error`; nothing in `main.cpp`
  catches it, so it ends the program.
* The widgets (`Fl_Input`, `Fl_Hold_Browser`) are reduced to the state the
  handlers read back: the text of the URL field, the rows of the list and the
  selected row.  The two dialogs of `add_browser_cb` are its arguments.
* Of the two `#ifdef _WIN32` alternatives the POSIX one is embedded in the
  handlers.  `fork` succeeds; the model records the `execvp` call made in the
  child.  The command line that the `_WIN32` alternative of `launch_browser`
  builds is embedded as a function of its own, `launch_browser_cmd`.
-/

namespace BrowserSelector

/-! ## Data model -/

/-- One configured browser: `struct BrowserEntry`. -/
structure BrowserEntry where
  name : String
  path : String
  args : List String
deriving DecidableEq, Repr

/-- The value type of the JSON library, without floating-point numbers.
An object lists its members in key order, as the library (a `std::map`) keeps
them. -/
inductive Json where
  | null
  | boolean (b : Bool)
  | number_integer (i : Int)
  | number_unsigned (n : Nat)
  | string (s : String)
  | array (elems : List Json)
  | object (members : List (String × Json))

/-- The exceptions of the JSON library that `main.cpp` can meet. -/
inductive JsonException where
  | parse_error
  | type_error (id : Nat)
deriving DecidableEq, Repr

/-- What the file at `config_path()` holds. -/
inductive ConfigFile where
  /-- there is no file: the `std::ifstream` does not open -/
  | absent
  /-- the file has zero bytes -/
  | empty
  /-- the file holds text that is not a JSON document -/
  | malformed
  /-- the file holds a document that parses to `j` -/
  | document (j : Json)

/-! ## Conversions between machine integers -/

/-- Conversion of an integer value to `int` (32 bits, two's complement). -/
def to_int (z : Int) : Int :=
  let m := z % 2 ^ 32
  if m < 2 ^ 31 then m else m - 2 ^ 32

/-- Conversion of an `int` to `size_t` (64 bits, unsigned). -/
def to_size_t (z : Int) : Nat :=
  (z % 2 ^ 64).toNat

/-! ## C strings -/

/-- The NUL character that ends a C string. -/
def nul : Char :=
  Char.ofNat 0

/-- The text a `const char*` obtained by `s.c_str()` (or `s.data()`) denotes:
the characters of `s` before its first NUL. -/
def c_str (s : String) : String :=
  String.mk (s.toList.takeWhile fun c => c ≠ nul)

/-- The string holds no NUL character. -/
abbrev no_nul (s : String) : Prop :=
  nul ∉ s.toList

/-! ## The JSON operations used by `main.cpp` -/

/-- The member of an object with the given key: `find(key)`. -/
def Json.find (members : List (String × Json)) (key : String) : Option Json :=
  members.lookup key

/-- Conversion `get<int>()`: defined on numbers and booleans, `type_error.302`
otherwise. -/
def Json.get_int : Json → Except JsonException Int
  | .number_unsigned n => .ok (to_int n)
  | .number_integer i => .ok (to_int i)
  | .boolean b => .ok (if b then 1 else 0)
  | _ => .error (.type_error 302)

/-- Conversion `get<std::string>()`. -/
def Json.get_string : Json → Except JsonException String
  | .string s => .ok s
  | _ => .error (.type_error 302)

/-- The element loop of `get<std::vector<std::string>>()`. -/
def Json.get_strings : List Json → Except JsonException (List String)
  | [] => .ok []
  | x :: xs => do
    let s ← x.get_string
    let rest ← Json.get_strings xs
    pure (s :: rest)

/-- Conversion `get<std::vector<std::string>>()`. -/
def Json.get_string_vector : Json → Except JsonException (List String)
  | .array elems => Json.get_strings elems
  | _ => .error (.type_error 302)

/-- The call `j.value(key, default_value)` for a conversion `get`: the
converted member when `j` is an object that has the key, the default when it
is an object without the key, `type_error.306` when `j` is not an object. -/
def Json.value {α : Type} (get : Json → Except JsonException α) (j : Json)
    (key : String) (default_value : α) : Except JsonException α :=
  match j with
  | .object members =>
    match Json.find members key with
    | some v => get v
    | none => .ok default_value
  | _ => .error (.type_error 306)

/-- The call `j[key]` on a non-const value: the member when `j` is an object
(a `null` member is inserted when the key is new), `null` when `j` is `null`
(which first becomes an empty object), `type_error.305` otherwise. -/
def Json.index (j : Json) (key : String) : Except JsonException Json :=
  match j with
  | .object members => .ok ((Json.find members key).getD .null)
  | .null => .ok .null
  | _ => .error (.type_error 305)

/-- The values a range-`for` over `j` visits: the elements of an array, the
member values of an object, nothing for `null`, the value itself otherwise. -/
def Json.items : Json → List Json
  | .array elems => elems
  | .object members => members.map Prod.snd
  | .null => []
  | j => [j]

/-! ## Program state -/

/-- The list widget `Fl_Hold_Browser`: its rows and the selected row
(`value()`, `0` when no row is selected). -/
structure Fl_Hold_Browser where
  lines : List String
  selected : Int
deriving DecidableEq, Repr

/-- The call `g_browser_list->clear()`. -/
def Fl_Hold_Browser.clear (_w : Fl_Hold_Browser) : Fl_Hold_Browser :=
  { lines := [], selected := 0 }

/-- The call `g_browser_list->add(text)` with a `const char*` argument: the
new row holds the text up to its first NUL. -/
def Fl_Hold_Browser.add (w : Fl_Hold_Browser) (text : String) : Fl_Hold_Browser :=
  { w with lines := w.lines ++ [c_str text] }

/-- The call `g_browser_list->select(line)`: rows outside `1..size` are
ignored. -/
def Fl_Hold_Browser.select (w : Fl_Hold_Browser) (line : Int) : Fl_Hold_Browser :=
  if 1 ≤ line ∧ line ≤ (w.lines.length : Int) then { w with selected := line } else w

/-- The call `g_browser_list->value()`. -/
def Fl_Hold_Browser.value (w : Fl_Hold_Browser) : Int :=
  w.selected

/-- One `execvp(file, argv)` call (`argv` without its closing `nullptr`). -/
structure ExecCall where
  file : String
  argv : List String
deriving DecidableEq, Repr

/-- The globals of `main.cpp`, the widget state the handlers read, and the
outside world the handlers act on. -/
structure App where
  g_browsers : List BrowserEntry
  g_last_used : Nat
  g_verbose : Bool
  g_url_input : String
  g_browser_list : Fl_Hold_Browser
  /-- the file at `config_path()` -/
  config : ConfigFile
  /-- the processes started so far -/
  spawned : List ExecCall
  /-- the lines written to `std::cout` -/
  cout : List String
  /-- the status passed to `std::exit`, once called -/
  exited : Option Int

/-- The state at program start: the globals as initialised, no widget content
yet, and the given config file. -/
def App.init (config : ConfigFile) : App :=
  { g_browsers := [], g_last_used := 0, g_verbose := false, g_url_input := "",
    g_browser_list := { lines := [], selected := 0 }, config := config,
    spawned := [], cout := [], exited := none }

/-! ## `save_config` and `load_config` -/

/-- The object pushed for one entry:
`{{"name", b.name}, {"path", b.path}, {"args", b.args}}`. -/
def entry_json (b : BrowserEntry) : Json :=
  .object [("args", .array (b.args.map .string)), ("name", .string b.name),
    ("path", .string b.path)]

/-- The loop of `save_config` that pushes one object per entry onto the
array `j["browsers"]`. -/
def push_entries : List BrowserEntry → List Json → List Json
  | [], acc => acc
  | b :: rest, acc => push_entries rest (acc ++ [entry_json b])

/-- The document `j` that `save_config` builds. -/
def config_json (browsers : List BrowserEntry) (last_used : Nat) : Json :=
  .object [("browsers", .array (push_entries browsers [])),
    ("last_used", .number_unsigned last_used)]

/-- Function `save_config`: the file is overwritten with the dump of `j`. -/
def save_config (a : App) : App :=
  { a with config := .document (config_json a.g_browsers a.g_last_used) }

/-- The body of the loop of `load_config`: one entry read from `item`. -/
def load_entry (item : Json) : Except JsonException BrowserEntry := do
  let name ← Json.value Json.get_string item "name" ""
  let path ← Json.value Json.get_string item "path" ""
  let args ← Json.value Json.get_string_vector item "args" []
  pure { name := name, path := path, args := args }

/-- The loop of `load_config` over `j["browsers"]`, pushing onto `g_browsers`. -/
def load_entries : List Json → List BrowserEntry → Except JsonException (List BrowserEntry)
  | [], acc => .ok acc
  | item :: rest, acc => do
    let b ← load_entry item
    load_entries rest (acc ++ [b])

/-- Function `load_config`. -/
def load_config (a : App) : Except JsonException App :=
  match a.config with
  | .absent => .ok a
  | .empty => .error .parse_error
  | .malformed => .error .parse_error
  | .document j => do
    let last_used ← Json.value Json.get_int j "last_used" 0
    let a1 := { a with g_last_used := to_size_t last_used }
    let browsers ← Json.index j "browsers"
    let entries ← load_entries browsers.items a1.g_browsers
    pure { a1 with g_browsers := entries }

/-- Saving the given list and index from a running program, then starting
afresh and loading: the list and index the fresh program ends up with. -/
def save_then_load (browsers : List BrowserEntry) (last_used : Nat) :
    Except JsonException (List BrowserEntry × Nat) :=
  let saved := save_config
    { App.init .absent with g_browsers := browsers, g_last_used := last_used }
  (load_config (App.init saved.config)).map fun a => (a.g_browsers, a.g_last_used)

/-! ## The list widget and the launcher -/

/-- Function `update_browser_list`: the widget is refilled with the entry names
and, when there is an entry, the row of the clamped last-used index is
selected. -/
def update_browser_list (a : App) : App :=
  let w := a.g_browser_list.clear
  let w := a.g_browsers.foldl (fun w b => w.add (c_str b.name)) w
  if a.g_browsers ≠ [] then
    let sel := min a.g_last_used (a.g_browsers.length - 1)
    { a with g_browser_list := w.select ((sel : Int) + 1) }
  else
    { a with g_browser_list := w }

/-- The vector `argv` that `launch_browser` builds in the child process: one
`c_str()` pointer per string. -/
def launch_browser_argv (b : BrowserEntry) (url : String) : List String :=
  let argv := [c_str b.path]
  let argv := b.args.foldl (fun v arg => v ++ [c_str arg]) argv
  if url ≠ "" then argv ++ [c_str url] else argv

/-- Function `launch_browser` (POSIX alternative): the child calls
`execvp(b.path.c_str(), argv.data())`. -/
def launch_browser (a : App) (b : BrowserEntry) (url : String) : App :=
  { a with spawned := a.spawned ++
      [{ file := c_str b.path, argv := launch_browser_argv b url }] }

/-- The double quote as a string. -/
def dquote : String :=
  String.singleton (Char.ofNat 34)

/-- A string between double quotes, nothing escaped. -/
def quoted (s : String) : String :=
  dquote ++ s ++ dquote

/-- Function `launch_browser` (`_WIN32` alternative): the command line handed
to `CreateProcessA` through `cmd.data()`. -/
def launch_browser_cmd (b : BrowserEntry) (url : String) : String :=
  let cmd := dquote ++ b.path ++ dquote
  let cmd := b.args.foldl (fun cmd arg => cmd ++ (" " ++ dquote ++ arg ++ dquote)) cmd
  let cmd := if url ≠ "" then cmd ++ (" " ++ dquote ++ url ++ dquote) else cmd
  c_str cmd

/-! ## The handlers -/

/-- Function `on_go`. -/
def on_go (a : App) : App :=
  let index := a.g_browser_list.value
  if index ≤ 0 ∨ index > (a.g_browsers.length : Int) then a
  else
    match a.g_browsers[(index - 1).toNat]? with
    | none => a -- not reached: the row is within the vector
    | some b =>
      let url := c_str a.g_url_input
      let a1 := if a.g_verbose then
          { a with cout := a.cout ++ ["Launching " ++ b.name ++ " with URL " ++ url] }
        else a
      let a2 := launch_browser a1 b url
      let a3 := { a2 with g_last_used := (index - 1).toNat }
      let a4 := save_config a3
      { a4 with exited := some 0 }

/-- Function `go_cb`. -/
def go_cb (a : App) : App :=
  on_go a

/-- The file name of a path: what follows its last `/`. -/
def path_filename (p : String) : List Char :=
  (p.toList.reverse.takeWhile (· ≠ '/')).reverse

/-- The call `std::filesystem::path(p).stem().string()`: the file name up to
its last period; the whole file name when it is `.` or `..`, has no period,
or has its only period in front. -/
def path_stem (p : String) : String :=
  let f := path_filename p
  if f = ['.'] ∨ f = ['.', '.'] then String.mk f
  else
    let extension := f.reverse.takeWhile (· ≠ '.')
    if extension.length = f.length then String.mk f
    else
      let dot := f.length - extension.length - 1
      if dot = 0 then String.mk f else String.mk (f.take dot)

/-- Function `add_browser_cb`.  `chooser_show` is the result of
`chooser.show()` (`0` when a file was picked), `filename` is
`chooser.filename()`, and `input` is the answer of the name prompt `fl_input`
(`none` for the null pointer of a cancelled prompt). -/
def add_browser_cb (a : App) (chooser_show : Int) (filename : String)
    (input : Option String) : App :=
  if chooser_show ≠ 0 then a
  else
    let path := filename
    let b : BrowserEntry :=
      { path := path,
        name := match input with
          | some name => name
          | none => path_stem path,
        args := [] }
    let a1 := { a with g_browsers := a.g_browsers ++ [b] }
    let a2 := { a1 with g_last_used := a1.g_browsers.length - 1 }
    update_browser_list (save_config a2)

/-- Function `remove_browser_cb`. -/
def remove_browser_cb (a : App) : App :=
  let index := a.g_browser_list.value
  if index ≤ 0 ∨ index > (a.g_browsers.length : Int) then a
  else
    let a1 := { a with g_browsers := a.g_browsers.eraseIdx (index - 1).toNat }
    let a2 := { a1 with g_last_used := 0 }
    update_browser_list (save_config a2)

/-! ## Program start -/

/-- The argument loop of `main` over `argv[1..]`, on the pair of `g_verbose`
and the local `url`. -/
def arg_loop : List String → Bool × String → Bool × String
  | [], state => state
  | arg :: rest, (verbose, url) =>
    if arg = "--verbose" ∨ arg = "-v" then arg_loop rest (true, url)
    else if url = "" then arg_loop rest (verbose, arg)
    else arg_loop rest (verbose, url)

/-- Function `main` up to the call of `Fl::run`: the state the event loop
starts from. -/
def main (argv : List String) (config : ConfigFile) : Except JsonException App := do
  let (verbose, url) := arg_loop (argv.drop 1) (false, "")
  let a0 := { App.init config with g_verbose := verbose }
  let a1 ← load_config a0
  let a2 := { a1 with g_url_input := c_str url }
  pure (update_browser_list a2)

/-- The flag test of the argument loop of `main`, as a predicate on one
argument. -/
def is_flag (arg : String) : Bool :=
  decide (arg = "--verbose" ∨ arg = "-v")

/-! ## Sample data -/

/-- A browser list with two entries, one of them with arguments. -/
def sample_browsers : List BrowserEntry :=
  [⟨"Firefox", "/usr/bin/firefox", ["--new-window", "--private-window"]⟩,
   ⟨"Chromium", "/usr/bin/chromium", []⟩]

/-- A running program with the two sample entries, the second row selected and
a URL in the URL field. -/
def sample_app : App :=
  { g_browsers := sample_browsers, g_last_used := 0, g_verbose := true,
    g_url_input := "https://example.org",
    g_browser_list := { lines := ["Firefox", "Chromium"], selected := 2 },
    config := .document (config_json sample_browsers 0),
    spawned := [], cout := [], exited := none }

/-- The sample program with a selected row beyond its two entries. -/
def sample_app_no_row : App :=
  { sample_app with g_browser_list := { lines := ["Firefox", "Chromium"], selected := 3 } }

/-! ## Lemmas on the conversions -/

theorem to_int_of_small (n : Nat) (h : n < 2 ^ 31) : to_int (n : Int) = n := by
  unfold to_int
  have h1 : (n : Int) % 2 ^ 32 = n := by omega
  simp only [h1]
  split
  · rfl
  · omega

theorem to_size_t_of_nat (n : Nat) (h : n < 2 ^ 64) : to_size_t (n : Int) = n := by
  unfold to_size_t
  omega

theorem to_size_t_to_int_small (n : Nat) (h : n < 2 ^ 31) :
    to_size_t (to_int (n : Int)) = n := by
  rw [to_int_of_small n h]
  exact to_size_t_of_nat n (by omega)

/-! ## Lemmas on C strings -/

theorem c_str_of_no_nul (s : String) (h : no_nul s) : c_str s = s := by
  unfold c_str
  have htake : s.toList.takeWhile (fun c => c ≠ nul) = s.toList := by
    rw [List.takeWhile_eq_self_iff]
    intro c hc
    simp only [ne_eq, decide_not, Bool.not_eq_true', decide_eq_false_iff_not]
    rintro rfl
    exact h hc
  rw [htake]
  rfl

theorem c_str_c_str (s : String) : c_str (c_str s) = c_str s := by
  unfold c_str
  simp [List.takeWhile_takeWhile]

theorem map_c_str_of_no_nul (l : List String) (h : ∀ s ∈ l, no_nul s) : l.map c_str = l := by
  induction l with
  | nil => rfl
  | cons x rest ih =>
    rw [List.map_cons, c_str_of_no_nul x (h x (List.mem_cons_self x rest)),
      ih fun s hs => h s (List.mem_cons_of_mem x hs)]

/-! ## Lemmas on saving and loading -/

theorem push_entries_eq (browsers : List BrowserEntry) (acc : List Json) :
    push_entries browsers acc = acc ++ browsers.map entry_json := by
  induction browsers generalizing acc with
  | nil => simp [push_entries]
  | cons b rest ih => simp [push_entries, ih]

theorem get_strings_map_string (l : List String) :
    Json.get_strings (l.map Json.string) = .ok l := by
  induction l with
  | nil => rfl
  | cons s rest ih =>
    simp only [List.map_cons, Json.get_strings, Json.get_string, ih]
    rfl

theorem load_entry_entry_json (b : BrowserEntry) : load_entry (entry_json b) = .ok b := by
  cases b with
  | mk name path args =>
    simp [load_entry, entry_json, Json.value, Json.find, List.lookup, Json.get_string,
      Json.get_string_vector, get_strings_map_string, bind, Except.bind, pure, Except.pure]

theorem load_entries_map (browsers acc : List BrowserEntry) :
    load_entries (browsers.map entry_json) acc = .ok (acc ++ browsers) := by
  induction browsers generalizing acc with
  | nil => simp [load_entries]
  | cons b rest ih =>
    simp only [List.map_cons, load_entries, load_entry_entry_json]
    show load_entries (rest.map entry_json) (acc ++ [b]) = _
    rw [ih]
    simp

/-- Loading a document written by `save_config`: the index is the stored one
taken through `int`, and the stored entries are appended to the list. -/
theorem load_config_config_json (a : App) (browsers : List BrowserEntry) (last_used : Nat)
    (h : a.config = .document (config_json browsers last_used)) :
    load_config a = .ok { a with
      g_last_used := to_size_t (to_int last_used),
      g_browsers := a.g_browsers ++ browsers } := by
  cases a with
  | mk bs lu verbose url w config spawned out exited =>
    simp only at h
    subst h
    simp [load_config, config_json, Json.value, Json.find, List.lookup, Json.get_int,
      Json.index, push_entries_eq, Json.items, load_entries_map, bind, Except.bind, pure,
      Except.pure]

theorem save_then_load_eq (browsers : List BrowserEntry) (last_used : Nat) :
    save_then_load browsers last_used = .ok (browsers, to_size_t (to_int last_used)) := by
  simp only [save_then_load]
  rw [load_config_config_json _ browsers last_used rfl]
  simp [Except.map, App.init]

/-! ## Lemmas on the list widget -/

theorem foldl_add_eq (browsers : List BrowserEntry) (w : Fl_Hold_Browser) :
    browsers.foldl (fun w b => w.add (c_str b.name)) w =
      { lines := w.lines ++ browsers.map fun b => c_str b.name, selected := w.selected } := by
  induction browsers generalizing w with
  | nil => simp
  | cons b rest ih =>
    rw [List.foldl_cons, ih]
    simp [Fl_Hold_Browser.add, c_str_c_str]

theorem update_browser_list_list (a : App) :
    (update_browser_list a).g_browser_list =
      if a.g_browsers = [] then { lines := [], selected := 0 }
      else { lines := a.g_browsers.map fun b => c_str b.name,
             selected := ((min a.g_last_used (a.g_browsers.length - 1) : Nat) : Int) + 1 } := by
  unfold update_browser_list
  by_cases h : a.g_browsers = []
  · simp [h, Fl_Hold_Browser.clear]
  · have hpos : 0 < a.g_browsers.length := List.length_pos_of_ne_nil h
    simp only [ne_eq, h, not_false_eq_true, ↓reduceIte, foldl_add_eq, Fl_Hold_Browser.clear,
      List.nil_append, Fl_Hold_Browser.select, List.length_map]
    rw [if_pos]
    constructor
    · omega
    · omega

theorem update_browser_list_frame (a : App) :
    (update_browser_list a).g_browsers = a.g_browsers ∧
    (update_browser_list a).g_last_used = a.g_last_used ∧
    (update_browser_list a).config = a.config ∧
    (update_browser_list a).spawned = a.spawned ∧
    (update_browser_list a).exited = a.exited := by
  unfold update_browser_list
  split <;> simp

/-! ## Lemmas on program start -/

theorem main_eq (argv : List String) (config : ConfigFile) :
    main argv config =
      (load_config { App.init config with
          g_verbose := (arg_loop (argv.drop 1) (false, "")).1 }).map fun a1 =>
        update_browser_list
          { a1 with g_url_input := c_str (arg_loop (argv.drop 1) (false, "")).2 } := by
  unfold main
  generalize arg_loop (argv.drop 1) (false, "") = state
  obtain ⟨verbose, url⟩ := state
  simp only
  cases load_config { App.init config with g_verbose := verbose } <;> rfl

theorem main_config_json (argv : List String) (browsers : List BrowserEntry) (last_used : Nat) :
    main argv (.document (config_json browsers last_used)) =
      .ok (update_browser_list
        { App.init (.document (config_json browsers last_used)) with
          g_verbose := (arg_loop (argv.drop 1) (false, "")).1,
          g_url_input := c_str (arg_loop (argv.drop 1) (false, "")).2,
          g_last_used := to_size_t (to_int last_used),
          g_browsers := browsers }) := by
  rw [main_eq, load_config_config_json _ browsers last_used rfl]
  simp [Except.map, App.init]

/-! ## Lemmas on file names and stems -/

theorem path_filename_eq (dir f : List Char) (hdir : dir = [] ∨ dir.getLast? = some '/')
    (hf : '/' ∉ f) : path_filename (String.mk (dir ++ f)) = f := by
  unfold path_filename
  show ((dir ++ f).reverse.takeWhile fun c => c ≠ '/').reverse = f
  have hrest : dir.reverse.takeWhile (fun c => c ≠ '/') = [] := by
    rcases hdir with h | h
    · simp [h]
    · have hhead : dir.reverse.head? = some '/' := by rw [List.head?_reverse, h]
      cases hrev : dir.reverse with
      | nil => simp [hrev] at hhead
      | cons c t =>
        rw [hrev] at hhead
        simp only [List.head?_cons, Option.some.injEq] at hhead
        simp [hhead]
  have hall : ∀ c ∈ f.reverse, (decide (c ≠ '/')) = true := by
    intro c hc
    simp only [ne_eq, decide_not, Bool.not_eq_true', decide_eq_false_iff_not]
    rintro rfl
    exact hf (List.mem_reverse.mp hc)
  rw [List.reverse_append, List.takeWhile_append_of_pos hall, hrest, List.append_nil,
    List.reverse_reverse]

theorem takeWhile_not_dot_of_not_mem (l rest : List Char) (h : '.' ∉ l) :
    (l.reverse ++ '.' :: rest).takeWhile (fun c => c ≠ '.') = l.reverse := by
  have hall : ∀ c ∈ l.reverse, (decide (c ≠ '.')) = true := by
    intro c hc
    simp only [ne_eq, decide_not, Bool.not_eq_true', decide_eq_false_iff_not]
    rintro rfl
    exact h (List.mem_reverse.mp hc)
  rw [List.takeWhile_append_of_pos hall]
  simp

/-- The stem of a file name with an extension: the part before the last
period. -/
theorem path_stem_of_extension (dir base ext : List Char)
    (hdir : dir = [] ∨ dir.getLast? = some '/') (hbase : base ≠ []) (hslash : '/' ∉ base)
    (hext : '/' ∉ ext) (hdot : '.' ∉ ext) (hdots : base ++ '.' :: ext ≠ ['.', '.']) :
    path_stem (String.mk (dir ++ (base ++ '.' :: ext))) = String.mk base := by
  have hfile : path_filename (String.mk (dir ++ (base ++ '.' :: ext))) = base ++ '.' :: ext := by
    apply path_filename_eq _ _ hdir
    simp [hslash, hext]
  have hlen : 0 < base.length := List.length_pos_of_ne_nil hbase
  have hne1 : base ++ '.' :: ext ≠ ['.'] := by
    intro h
    have := congrArg List.length h
    simp at this
    omega
  unfold path_stem
  simp only [hfile, hne1, hdots, or_self, ↓reduceIte]
  have hrev : (base ++ '.' :: ext).reverse = ext.reverse ++ '.' :: base.reverse := by simp
  rw [hrev, takeWhile_not_dot_of_not_mem ext base.reverse hdot]
  have h1 : ¬ (ext.reverse.length = (base ++ '.' :: ext).length) := by
    simp
    omega
  have h2 : (base ++ '.' :: ext).length - ext.reverse.length - 1 = base.length := by
    simp
    omega
  simp only [h1, ↓reduceIte, h2]
  rw [if_neg (by omega), List.take_left']
  rfl

/-- The stem of a file name without extension (no period, a period only in
front, or the name `..`): the file name itself. -/
theorem path_stem_of_plain (dir f : List Char)
    (hdir : dir = [] ∨ dir.getLast? = some '/') (hslash : '/' ∉ f)
    (hplain : '.' ∉ f ∨ f = ['.', '.'] ∨ ∃ ext, f = '.' :: ext ∧ '.' ∉ ext) :
    path_stem (String.mk (dir ++ f)) = String.mk f := by
  have hfile : path_filename (String.mk (dir ++ f)) = f := path_filename_eq _ _ hdir hslash
  unfold path_stem
  simp only [hfile]
  split
  · rfl
  · rename_i hspecial
    rcases hplain with h | h | ⟨ext, h, hext⟩
    · have hall : ∀ c ∈ f.reverse, (decide (c ≠ '.')) = true := by
        intro c hc
        simp only [ne_eq, decide_not, Bool.not_eq_true', decide_eq_false_iff_not]
        rintro rfl
        exact h (List.mem_reverse.mp hc)
      rw [List.takeWhile_eq_self_iff.mpr hall]
      simp
    · exact absurd (Or.inr h) hspecial
    · subst h
      have hrev : ('.' :: ext).reverse = ext.reverse ++ '.' :: [] := by simp
      rw [hrev, takeWhile_not_dot_of_not_mem ext [] hext]
      simp

/-! ## Lemmas on the launcher and the argument loop -/

theorem foldl_push_back (args init : List String) :
    args.foldl (fun v arg => v ++ [c_str arg]) init = init ++ args.map c_str := by
  induction args generalizing init with
  | nil => simp
  | cons x rest ih =>
    rw [List.foldl_cons, ih]
    simp

theorem launch_browser_argv_eq (b : BrowserEntry) (url : String) :
    launch_browser_argv b url =
      [c_str b.path] ++ b.args.map c_str ++ (if url = "" then [] else [c_str url]) := by
  unfold launch_browser_argv
  simp only [foldl_push_back]
  by_cases h : url = "" <;> simp [h]

theorem intercalate_go_eq (acc sep : String) (l : List String) :
    String.intercalate.go acc sep l = l.foldl (fun cmd x => cmd ++ (sep ++ x)) acc := by
  induction l generalizing acc with
  | nil => rfl
  | cons x rest ih =>
    rw [String.intercalate.go, ih, List.foldl_cons, String.append_assoc]

theorem foldl_quoted (args : List String) (init : String) :
    args.foldl (fun cmd arg => cmd ++ (" " ++ dquote ++ arg ++ dquote)) init =
      (args.map quoted).foldl (fun cmd x => cmd ++ (" " ++ x)) init := by
  induction args generalizing init with
  | nil => rfl
  | cons x rest ih =>
    rw [List.foldl_cons, ih, List.map_cons, List.foldl_cons]
    simp [quoted, String.append_assoc]

theorem launch_browser_cmd_eq (b : BrowserEntry) (url : String) :
    launch_browser_cmd b url =
      c_str (" ".intercalate
        (([b.path] ++ b.args ++ (if url = "" then [] else [url])).map quoted)) := by
  unfold launch_browser_cmd
  simp only [List.cons_append, List.nil_append, List.map_cons, String.intercalate,
    intercalate_go_eq, foldl_quoted, List.map_append, List.foldl_append]
  by_cases h : url = ""
  · simp [h, quoted]
  · simp [h, quoted, String.append_assoc]

/-- The verbose result of the argument loop: set before, or some argument is a
flag. -/
theorem arg_loop_verbose (args : List String) (verbose : Bool) (url : String) :
    (arg_loop args (verbose, url)).1 = (verbose || args.any is_flag) := by
  induction args generalizing verbose url with
  | nil => simp [arg_loop]
  | cons arg rest ih =>
    unfold arg_loop
    by_cases hflag : arg = "--verbose" ∨ arg = "-v"
    · simp [hflag, ih, is_flag]
    · by_cases hurl : url = ""
      · simp [hflag, hurl, ih, is_flag]
      · simp [hflag, hurl, ih, is_flag]

/-- The URL result of the argument loop: the URL held before when that is not
empty, else the first argument that is neither a flag nor empty, else the
empty string. -/
theorem arg_loop_url (args : List String) (verbose : Bool) (url : String) :
    (arg_loop args (verbose, url)).2 =
      if url = "" then
        ((args.filter fun arg => !is_flag arg).find? fun arg => decide (arg ≠ "")).getD ""
      else url := by
  induction args generalizing verbose url with
  | nil => by_cases hurl : url = "" <;> simp [arg_loop, hurl]
  | cons arg rest ih =>
    unfold arg_loop
    by_cases hflag : arg = "--verbose" ∨ arg = "-v"
    · have hf : is_flag arg = true := by simp [is_flag, hflag]
      rw [if_pos hflag, ih, List.filter_cons]
      simp only [hf, Bool.not_true, Bool.false_eq_true, ↓reduceIte]
    · have hf : is_flag arg = false := by simp [is_flag, hflag]
      rw [if_neg hflag, List.filter_cons]
      simp only [hf, Bool.not_false, ↓reduceIte, List.find?_cons]
      by_cases hurl : url = ""
      · rw [if_pos hurl, ih, if_pos hurl]
        by_cases harg : arg = ""
        · simp [harg]
        · simp [harg]
      · rw [if_neg hurl, ih, if_neg hurl, if_neg hurl]

/-- Every call of `save_config` in a handler writes the list and the index of
the resulting state, and that index is a row index of the list (or `0`). -/
theorem handlers_save_row_index (a : App) (code : Int) (filename : String)
    (input : Option String) :
    ((on_go a).config = a.config ∨
      ((on_go a).config = .document (config_json (on_go a).g_browsers (on_go a).g_last_used) ∧
        (on_go a).g_last_used < max 1 (on_go a).g_browsers.length)) ∧
    ((remove_browser_cb a).config = a.config ∨
      ((remove_browser_cb a).config =
          .document (config_json (remove_browser_cb a).g_browsers
            (remove_browser_cb a).g_last_used) ∧
        (remove_browser_cb a).g_last_used < max 1 (remove_browser_cb a).g_browsers.length)) ∧
    ((add_browser_cb a code filename input).config = a.config ∨
      ((add_browser_cb a code filename input).config =
          .document (config_json (add_browser_cb a code filename input).g_browsers
            (add_browser_cb a code filename input).g_last_used) ∧
        (add_browser_cb a code filename input).g_last_used <
          max 1 (add_browser_cb a code filename input).g_browsers.length)) := by
  refine ⟨?_, ?_, ?_⟩
  · unfold on_go
    simp only
    split
    · exact Or.inl rfl
    · rename_i hguard
      split
      · exact Or.inl rfl
      · rename_i b hb
        have hlt : (a.g_browser_list.value - 1).toNat < a.g_browsers.length := by
          have := List.getElem?_eq_some_iff.mp hb
          exact this.1
        refine Or.inr ⟨?_, ?_⟩
        · cases a.g_verbose <;> rfl
        · cases a.g_verbose <;>
            simp only [launch_browser, save_config, Bool.false_eq_true, ↓reduceIte] <;> omega
  · unfold remove_browser_cb
    simp only
    split
    · exact Or.inl rfl
    · right
      rw [(update_browser_list_frame _).1, (update_browser_list_frame _).2.1,
        (update_browser_list_frame _).2.2.1]
      refine ⟨rfl, ?_⟩
      simp only [save_config]
      omega
  · unfold add_browser_cb
    simp only
    split
    · exact Or.inl rfl
    · right
      rw [(update_browser_list_frame _).1, (update_browser_list_frame _).2.1,
        (update_browser_list_frame _).2.2.1]
      refine ⟨rfl, ?_⟩
      simp only [save_config, List.length_append, List.length_singleton]
      omega

/-! ## The claims on the config store -/

/-- C1: for every browser list and every last-used index of it (a row index
of the list, or `0`, as `g_last_used` is at every call of `save_config`; the
list within the sizes of the data model), `save_config` followed by
`load_config` into the initial empty state gives back exactly the same list,
entry by entry with name, path and arguments, and the same last-used index. -/
theorem save_then_load_roundtrip (browsers : List BrowserEntry) (last_used : Nat)
    (hsize : browsers.length < 2 ^ 31) (hindex : last_used < max 1 browsers.length) :
    save_then_load browsers last_used = .ok (browsers, last_used) := by
  rw [save_then_load_eq, to_size_t_to_int_small last_used (by omega)]

/-- The round trip of C1 at the two sample entries with last-used index `1`. -/
theorem save_then_load_roundtrip_witness :
    sample_browsers.length < 2 ^ 31 ∧ 1 < max 1 sample_browsers.length ∧
    save_then_load sample_browsers 1 = .ok (sample_browsers, 1) :=
  ⟨by decide, by decide, save_then_load_roundtrip sample_browsers 1 (by decide) (by decide)⟩

/-- C5: with no file at the config path `load_config` returns normally and
changes nothing, so at program start the browser list stays empty and the
last-used index stays `0`, also at the end of the start-up in `main`. -/
theorem load_config_no_file (a : App) (argv : List String) :
    load_config { a with config := .absent } = .ok { a with config := .absent } ∧
    (∃ a1, load_config (App.init .absent) = .ok a1 ∧ a1.g_browsers = [] ∧
      a1.g_last_used = 0) ∧
    (∃ a2, main argv .absent = .ok a2 ∧ a2.g_browsers = [] ∧ a2.g_last_used = 0) := by
  refine ⟨rfl, ⟨App.init .absent, rfl, rfl, rfl⟩, ?_⟩
  rw [main_eq]
  refine ⟨_, rfl, ?_, ?_⟩
  · rw [(update_browser_list_frame _).1]
    rfl
  · rw [(update_browser_list_frame _).2.1]
    rfl

/-- C6, as stated, fails: on the zero-byte config file `load_config` raises the
parse error of the JSON library instead of returning. -/
theorem load_config_empty_file_raises :
    load_config (App.init .empty) = .error .parse_error ∧
    ¬ ∃ a, load_config (App.init .empty) = .ok a := by
  refine ⟨rfl, ?_⟩
  rintro ⟨a, h⟩
  cases h

/-- C6, amended: for every config file whose content fails to parse as JSON,
the zero-byte file included, `load_config` raises the parse error of the JSON
library; `main` does not catch it, so the start-up ends there and never
proceeds with an empty list. -/
theorem load_config_unparsable_raises (a : App) (argv : List String)
    (h : a.config = .empty ∨ a.config = .malformed) :
    load_config a = .error .parse_error ∧ main argv a.config = .error .parse_error := by
  rcases h with h | h
  · refine ⟨by simp [load_config, h], ?_⟩
    rw [main_eq, h]
    rfl
  · refine ⟨by simp [load_config, h], ?_⟩
    rw [main_eq, h]
    rfl

/-- The amended C6 at a fresh program over a malformed config file. -/
theorem load_config_unparsable_raises_witness :
    ((App.init .malformed).config = .empty ∨ (App.init .malformed).config = .malformed) ∧
    load_config (App.init .malformed) = .error .parse_error ∧
    main ["browserselector"] (App.init .malformed).config = .error .parse_error :=
  ⟨Or.inr rfl, load_config_unparsable_raises (App.init .malformed) ["browserselector"]
    (Or.inr rfl)⟩

/-- The selection after loading, for every stored `last_used` number: the list
shows the entries, the selected row is a row of the list, and the selection
index is `min last_used (n-1)` whenever the stored number is below `2^32`. -/
theorem main_selection_in_range (argv : List String) (browsers : List BrowserEntry)
    (last_used : Nat) (h : browsers ≠ []) (hsize : browsers.length < 2 ^ 31) :
    ∃ a, main argv (.document (config_json browsers last_used)) = .ok a ∧
      a.g_browsers = browsers ∧
      a.g_browser_list.lines = browsers.map (fun b => c_str b.name) ∧
      1 ≤ a.g_browser_list.value ∧
      a.g_browser_list.value ≤ browsers.length ∧
      (last_used < 2 ^ 32 →
        a.g_browser_list.value - 1 = ((min last_used (browsers.length - 1) : Nat) : Int)) := by
  rw [main_config_json]
  refine ⟨_, rfl, ?_⟩
  have hpos : 0 < browsers.length := List.length_pos_of_ne_nil h
  rw [(update_browser_list_frame _).1, Fl_Hold_Browser.value, update_browser_list_list]
  simp only [h, ↓reduceIte]
  refine ⟨trivial, trivial, ?_, ?_, ?_⟩
  · omega
  · omega
  · intro hsmall
    have hconv : last_used < 2 ^ 31 ∧ to_size_t (to_int last_used) = last_used ∨
        2 ^ 31 ≤ last_used ∧ 2 ^ 64 - 2 ^ 31 ≤ to_size_t (to_int last_used) := by
      unfold to_size_t to_int
      simp only
      split <;> omega
    omega

/-- C4 fails on the config file with two entries and `"last_used": 4294967296`:
the stored number is read as an `int`, which gives `0`, so the selection index
after loading is `0`, while `min 4294967296 (2-1)` is `1`. -/
theorem main_selection_wraps :
    ∃ a, main ["browserselector"] (.document (config_json
        [⟨"Firefox", "/usr/bin/firefox", []⟩, ⟨"Chromium", "/usr/bin/chromium", []⟩]
        4294967296)) = .ok a ∧
      a.g_browser_list.value - 1 = 0 ∧
      a.g_browser_list.value - 1 ≠ ((min 4294967296 (2 - 1) : Nat) : Int) := by
  rw [main_config_json]
  refine ⟨_, rfl, ?_⟩
  rw [Fl_Hold_Browser.value, update_browser_list_list]
  have hconv : to_size_t (to_int 4294967296) = 0 := by decide
  simp [hconv]

/-! ## The claims on the launcher and the handlers -/

/-- C2, as stated, fails: an entry loaded with the argument `a`, NUL, `b` is
started with the argument `a`, because `launch_browser` hands `c_str()`
pointers to `execvp`. -/
theorem launch_browser_cuts_at_nul :
    (launch_browser (App.init .absent) ⟨"Tool", "/usr/bin/tool", ["a\x00b"]⟩ "u").spawned =
      [{ file := "/usr/bin/tool", argv := ["/usr/bin/tool", "a", "u"] }] ∧
    (launch_browser (App.init .absent) ⟨"Tool", "/usr/bin/tool", ["a\x00b"]⟩ "u").spawned ≠
      [{ file := "/usr/bin/tool",
         argv := ["/usr/bin/tool"] ++ ["a\x00b"] ++ (if "u" = "" then [] else ["u"]) }] := by
  decide

/-- C2, amended: for every entry and every URL, `launch_browser` starts one
process; its program is the path of the entry and its argument list is the
path, then the stored arguments in their order, then the URL when the URL is
not empty, each of these strings handed over as a C string (up to its first
NUL).  For an entry and a URL without NUL that is exactly the list
`[path] ++ args ++ [url]` (`[path] ++ args` for the empty URL) with program
`path`.  The `_WIN32` alternative hands the same strings over as one command
line: each between double quotes, joined by single blanks, as a C string. -/
theorem launch_browser_spawns (a : App) (b : BrowserEntry) (url : String) :
    (launch_browser a b url).spawned =
      a.spawned ++
        [{ file := c_str b.path,
           argv := [c_str b.path] ++ b.args.map c_str ++
             (if url = "" then [] else [c_str url]) }] ∧
    (no_nul b.path → (∀ arg ∈ b.args, no_nul arg) → no_nul url →
      (launch_browser a b url).spawned =
        a.spawned ++
          [{ file := b.path, argv := [b.path] ++ b.args ++ (if url = "" then [] else [url]) }]) ∧
    launch_browser_cmd b url =
      c_str (" ".intercalate
        (([b.path] ++ b.args ++ (if url = "" then [] else [url])).map quoted)) := by
  have hgen : (launch_browser a b url).spawned =
      a.spawned ++
        [{ file := c_str b.path,
           argv := [c_str b.path] ++ b.args.map c_str ++
             (if url = "" then [] else [c_str url]) }] := by
    unfold launch_browser
    rw [launch_browser_argv_eq]
  refine ⟨hgen, ?_, launch_browser_cmd_eq b url⟩
  intro hpath hargs hurl
  rw [hgen, c_str_of_no_nul b.path hpath, map_c_str_of_no_nul b.args hargs,
    c_str_of_no_nul url hurl]

/-- The amended C2 at the first sample entry and a URL. -/
theorem launch_browser_spawns_witness :
    no_nul "/usr/bin/firefox" ∧
    (∀ arg ∈ ["--new-window", "--private-window"], no_nul arg) ∧
    no_nul "https://example.org" ∧
    (launch_browser sample_app
        ⟨"Firefox", "/usr/bin/firefox", ["--new-window", "--private-window"]⟩
        "https://example.org").spawned =
      sample_app.spawned ++
        [{ file := "/usr/bin/firefox",
           argv := ["/usr/bin/firefox"] ++ ["--new-window", "--private-window"] ++
             (if "https://example.org" = "" then [] else ["https://example.org"]) }] ∧
    launch_browser_cmd
        ⟨"Firefox", "/usr/bin/firefox", ["--new-window", "--private-window"]⟩
        "https://example.org" =
      quoted "/usr/bin/firefox" ++ " " ++ quoted "--new-window" ++ " " ++
        quoted "--private-window" ++ " " ++ quoted "https://example.org" :=
  ⟨by decide, by decide, by decide,
    (launch_browser_spawns sample_app
      ⟨"Firefox", "/usr/bin/firefox", ["--new-window", "--private-window"]⟩
      "https://example.org").2.1 (by decide) (by decide) (by decide),
    by decide⟩

/-- C7 fails on the command line `browserselector "" https://example.org`: the
first argument that is not a flag is the empty string, yet the URL field is
filled with the later argument `https://example.org`. -/
theorem main_url_skips_empty_argument :
    ∃ a, main ["browserselector", "", "https://example.org"] .absent = .ok a ∧
      a.g_url_input = "https://example.org" ∧
      (["", "https://example.org"].filter fun arg => !is_flag arg).head? = some "" := by
  have hc : c_str "https://example.org" = "https://example.org" := by decide
  rw [main_eq]
  refine ⟨_, rfl, ?_, by decide⟩
  unfold update_browser_list
  simp [App.init, arg_loop, hc]

/-- C8: for every state whose selected row is out of range (no row selected, or
a row beyond the list), `on_go` and `remove_browser_cb` return the state as it
was: list, last-used index, config file, started processes and exit status
are all unchanged. -/
theorem handlers_ignore_invalid_selection (a : App)
    (h : a.g_browser_list.value ≤ 0 ∨ a.g_browser_list.value > (a.g_browsers.length : Int)) :
    on_go a = a ∧ remove_browser_cb a = a := by
  constructor
  · simp only [on_go, h, ↓reduceIte]
  · simp only [remove_browser_cb, h, ↓reduceIte]

/-- C8 at the sample program with row `3` of two selected. -/
theorem handlers_ignore_invalid_selection_witness :
    (sample_app_no_row.g_browser_list.value ≤ 0 ∨
      sample_app_no_row.g_browser_list.value > (sample_app_no_row.g_browsers.length : Int)) ∧
    on_go sample_app_no_row = sample_app_no_row ∧
    remove_browser_cb sample_app_no_row = sample_app_no_row :=
  ⟨Or.inr (by decide), handlers_ignore_invalid_selection sample_app_no_row (Or.inr (by decide))⟩

/-- C3: for every state whose selected row `k` is a row of the list,
`remove_browser_cb` leaves the list without its entry at index `k-1`, the
entries before and after it kept in order, sets the last-used index to `0`,
and the config file it writes holds that list and `last_used = 0`. -/
theorem remove_browser_cb_valid (a : App) (k : Nat) (h1 : 1 ≤ k)
    (h2 : k ≤ a.g_browsers.length) (hsel : a.g_browser_list.value = (k : Int)) :
    (remove_browser_cb a).g_browsers = a.g_browsers.take (k - 1) ++ a.g_browsers.drop k ∧
    (remove_browser_cb a).g_last_used = 0 ∧
    (remove_browser_cb a).config =
      .document (config_json (a.g_browsers.take (k - 1) ++ a.g_browsers.drop k) 0) := by
  have hguard : ¬ (a.g_browser_list.value ≤ 0 ∨
      a.g_browser_list.value > (a.g_browsers.length : Int)) := by
    rw [hsel]
    omega
  have hidx : ((k : Int) - 1).toNat = k - 1 := by omega
  have herase : a.g_browsers.eraseIdx (k - 1) =
      a.g_browsers.take (k - 1) ++ a.g_browsers.drop k := by
    rw [List.eraseIdx_eq_take_drop_succ]
    congr 2
    omega
  simp only [remove_browser_cb, hguard, ↓reduceIte]
  obtain ⟨hb, hl, hc, -, -⟩ := update_browser_list_frame
    (save_config { a with
      g_browsers := a.g_browsers.eraseIdx (a.g_browser_list.value - 1).toNat,
      g_last_used := 0 })
  rw [hb, hl, hc]
  simp only [save_config, hsel, hidx, herase]
  exact ⟨trivial, trivial, trivial⟩

/-- C3 at the sample program, second row selected. -/
theorem remove_browser_cb_valid_witness :
    1 ≤ 2 ∧ 2 ≤ sample_app.g_browsers.length ∧
    sample_app.g_browser_list.value = ((2 : Nat) : Int) ∧
    (remove_browser_cb sample_app).g_browsers =
      sample_app.g_browsers.take (2 - 1) ++ sample_app.g_browsers.drop 2 ∧
    (remove_browser_cb sample_app).g_last_used = 0 ∧
    (remove_browser_cb sample_app).config =
      .document (config_json
        (sample_app.g_browsers.take (2 - 1) ++ sample_app.g_browsers.drop 2) 0) :=
  ⟨by decide, by decide, by decide,
    remove_browser_cb_valid sample_app 2 (by decide) (by decide) (by decide)⟩

/-- C9: for every state, chosen path `p` and entered name `n`, `add_browser_cb`
appends the one entry with name `n`, path `p` and no arguments to the list,
sets the last-used index to the old size of the list and writes that list and
index to the config file.  With the name prompt cancelled the name is the file
stem of `p`: for a file name `base.ext` (after the last `/` of `p`, `ext`
without period, `base` not empty, the name not `..`) it is `base`, and for a
file name without period, with its only period in front, or `..`, it is the
file name.  With the file chooser not confirmed (`code ≠ 0`) the state is
unchanged. -/
theorem add_browser_cb_spec (a : App) (p n : String) (code : Int) (input : Option String)
    (hcancel : code ≠ 0) :
    ((add_browser_cb a 0 p (some n)).g_browsers =
        a.g_browsers ++ [{ name := n, path := p, args := [] }] ∧
      (add_browser_cb a 0 p (some n)).g_last_used = a.g_browsers.length ∧
      (add_browser_cb a 0 p (some n)).config =
        .document (config_json (a.g_browsers ++ [{ name := n, path := p, args := [] }])
          a.g_browsers.length)) ∧
    ((add_browser_cb a 0 p none).g_browsers =
        a.g_browsers ++ [{ name := path_stem p, path := p, args := [] }] ∧
      (add_browser_cb a 0 p none).g_last_used = a.g_browsers.length ∧
      (add_browser_cb a 0 p none).config =
        .document (config_json (a.g_browsers ++ [{ name := path_stem p, path := p, args := [] }])
          a.g_browsers.length)) ∧
    (∀ dir base ext : List Char, (dir = [] ∨ dir.getLast? = some '/') → base ≠ [] →
      '/' ∉ base → '/' ∉ ext → '.' ∉ ext → base ++ '.' :: ext ≠ ['.', '.'] →
      (add_browser_cb a 0 (String.mk (dir ++ (base ++ '.' :: ext))) none).g_browsers =
        a.g_browsers ++
          [{ name := String.mk base, path := String.mk (dir ++ (base ++ '.' :: ext)),
             args := [] }]) ∧
    (∀ dir f : List Char, (dir = [] ∨ dir.getLast? = some '/') → '/' ∉ f →
      ('.' ∉ f ∨ f = ['.', '.'] ∨ ∃ ext, f = '.' :: ext ∧ '.' ∉ ext) →
      (add_browser_cb a 0 (String.mk (dir ++ f)) none).g_browsers =
        a.g_browsers ++ [{ name := String.mk f, path := String.mk (dir ++ f), args := [] }]) ∧
    add_browser_cb a code p input = a := by
  have hpicked : ∀ (q : String) (inp : Option String),
      (add_browser_cb a 0 q inp).g_browsers =
        a.g_browsers ++ [{ name := inp.getD (path_stem q), path := q, args := [] }] ∧
      (add_browser_cb a 0 q inp).g_last_used = a.g_browsers.length ∧
      (add_browser_cb a 0 q inp).config =
        .document (config_json
          (a.g_browsers ++ [{ name := inp.getD (path_stem q), path := q, args := [] }])
          a.g_browsers.length) := by
    intro q inp
    simp only [add_browser_cb, ne_eq, not_true_eq_false, ↓reduceIte]
    rw [(update_browser_list_frame _).1, (update_browser_list_frame _).2.1,
      (update_browser_list_frame _).2.2.1]
    cases inp <;> simp [save_config]
  refine ⟨hpicked p (some n), hpicked p none, ?_, ?_, ?_⟩
  · intro dir base ext hdir hbase hslash hext hdot hdots
    rw [(hpicked _ none).1]
    simp only [Option.getD_none]
    rw [path_stem_of_extension dir base ext hdir hbase hslash hext hdot hdots]
  · intro dir f hdir hslash hplain
    rw [(hpicked _ none).1]
    simp only [Option.getD_none]
    rw [path_stem_of_plain dir f hdir hslash hplain]
  · simp only [add_browser_cb, ne_eq, hcancel, not_false_eq_true, ↓reduceIte]

/-- C9 at the sample program and the path `/opt/brave/brave.bin`: the entered
name `Brave` is kept, the cancelled prompt gives the name `brave`, and the
cancelled file chooser changes nothing. -/
theorem add_browser_cb_spec_witness :
    (1 : Int) ≠ 0 ∧
    (add_browser_cb sample_app 0 "/opt/brave/brave.bin" (some "Brave")).g_browsers =
      sample_browsers ++ [{ name := "Brave", path := "/opt/brave/brave.bin", args := [] }] ∧
    (add_browser_cb sample_app 0 "/opt/brave/brave.bin" (some "Brave")).g_last_used = 2 ∧
    (add_browser_cb sample_app 0 "/opt/brave/brave.bin" (some "Brave")).config =
      .document (config_json
        (sample_browsers ++ [{ name := "Brave", path := "/opt/brave/brave.bin", args := [] }])
        2) ∧
    (add_browser_cb sample_app 0 "/opt/brave/brave.bin" none).g_browsers =
      sample_browsers ++ [{ name := "brave", path := "/opt/brave/brave.bin", args := [] }] ∧
    (add_browser_cb sample_app 0 "/opt/brave/brave.bin" none).g_last_used = 2 ∧
    (add_browser_cb sample_app 0 "/.config" none).g_browsers =
      sample_browsers ++ [{ name := ".config", path := "/.config", args := [] }] ∧
    add_browser_cb sample_app 1 "/opt/brave/brave.bin" none = sample_app :=
  have h := add_browser_cb_spec sample_app "/opt/brave/brave.bin" "Brave" 1 none (by decide)
  ⟨by decide, h.1.1, h.1.2.1, h.1.2.2,
    h.2.2.1 "/opt/brave/".toList "brave".toList "bin".toList
      (Or.inr (by decide)) (by decide) (by decide) (by decide) (by decide) (by decide),
    h.2.1.2.1,
    h.2.2.2.1 "/".toList ".config".toList (Or.inr (by decide)) (by decide)
      (Or.inr (Or.inr ⟨"config".toList, by decide, by decide⟩)),
    h.2.2.2.2⟩

/-- C10: for every state whose selected row `k` is a row of the list, `on_go`
starts the entry at index `k-1` with the text of the URL field as URL (program
and arguments handed over as C strings, as `launch_browser` does), sets the
last-used index to `k-1`, writes the unchanged list with `last_used = k-1` to
the config file, and exits with status `0`. -/
theorem on_go_valid (a : App) (k : Nat) (h1 : 1 ≤ k) (h2 : k ≤ a.g_browsers.length)
    (hsel : a.g_browser_list.value = (k : Int)) :
    ∃ b, a.g_browsers[k - 1]? = some b ∧
      (on_go a).spawned = a.spawned ++
        [{ file := c_str b.path,
           argv := [c_str b.path] ++ b.args.map c_str ++
             (if c_str a.g_url_input = "" then [] else [c_str a.g_url_input]) }] ∧
      (on_go a).g_last_used = k - 1 ∧
      (on_go a).g_browsers = a.g_browsers ∧
      (on_go a).config = .document (config_json a.g_browsers (k - 1)) ∧
      (on_go a).exited = some 0 := by
  have hguard : ¬ (a.g_browser_list.value ≤ 0 ∨
      a.g_browser_list.value > (a.g_browsers.length : Int)) := by
    rw [hsel]
    omega
  have hidx : ((k : Int) - 1).toNat = k - 1 := by omega
  have hlt : k - 1 < a.g_browsers.length := by omega
  have hk : ¬ (k = 0 ∨ a.g_browsers.length < k) := by omega
  refine ⟨a.g_browsers[k - 1], List.getElem?_eq_getElem hlt, ?_⟩
  simp only [on_go, hguard, ↓reduceIte, hsel, hidx, List.getElem?_eq_getElem hlt]
  cases hv : a.g_verbose <;>
    simp [launch_browser, save_config, launch_browser_argv_eq, hk, c_str_c_str]

/-- C10 at the sample program, second row selected: Chromium is started on
the URL of the URL field. -/
theorem on_go_valid_witness :
    1 ≤ 2 ∧ 2 ≤ sample_app.g_browsers.length ∧
    sample_app.g_browser_list.value = ((2 : Nat) : Int) ∧
    (∃ b, sample_app.g_browsers[2 - 1]? = some b ∧
      (on_go sample_app).spawned = sample_app.spawned ++
        [{ file := c_str b.path,
           argv := [c_str b.path] ++ b.args.map c_str ++
             (if c_str sample_app.g_url_input = "" then []
              else [c_str sample_app.g_url_input]) }] ∧
      (on_go sample_app).g_last_used = 2 - 1 ∧
      (on_go sample_app).g_browsers = sample_app.g_browsers ∧
      (on_go sample_app).config = .document (config_json sample_app.g_browsers (2 - 1)) ∧
      (on_go sample_app).exited = some 0) ∧
    (on_go sample_app).spawned =
      [{ file := "/usr/bin/chromium",
         argv := ["/usr/bin/chromium", "https://example.org"] }] ∧
    (on_go sample_app).g_last_used = 1 :=
  ⟨by decide, by decide, by decide,
    on_go_valid sample_app 2 (by decide) (by decide) (by decide), by decide, by decide⟩

end BrowserSelector
